import Mathlib

/-! Verification development for the Web-bot-generator pipeline
(`generator_app.py`): a shallow embedding of `call_grok_system`, the
Jinja template rendering, the `/generate` handler's file layout and
`make_zip`, together with theorems about the claimed properties. -/

namespace GenApp

/-! ## Substring machinery -/

/-- Boolean test: does the pattern `pat` occur contiguously in the character
list `s`? -/
def containsChars (pat : List Char) : List Char → Bool
  | [] => pat.isEmpty
  | c :: rest => pat.isPrefixOf (c :: rest) || containsChars pat rest

/-- `Contains s pat`: the string `pat` occurs contiguously in the string `s`. -/
@[reducible] def Contains (s pat : String) : Prop :=
  containsChars pat.data s.data = true

theorem data_append (a b : String) : (a ++ b).data = a.data ++ b.data := by
  cases a; cases b; rfl

theorem string_ext (a b : String) (h : a.data = b.data) : a = b := by
  cases a; cases b; cases h; rfl

theorem sappend_assoc (a b c : String) : (a ++ b) ++ c = a ++ (b ++ c) := by
  apply string_ext
  simp only [data_append, List.append_assoc]

theorem isPrefixOf_self_append (p b : List Char) : p.isPrefixOf (p ++ b) = true := by
  induction p with
  | nil => simp [List.isPrefixOf]
  | cons x xs ih => simp [List.isPrefixOf, ih]

theorem isPrefixOf_extend (p : List Char) :
    ∀ s y : List Char, p.isPrefixOf s = true → p.isPrefixOf (s ++ y) = true := by
  induction p with
  | nil => intro s y _; simp [List.isPrefixOf]
  | cons a as ih =>
    intro s y h
    cases s with
    | nil => simp [List.isPrefixOf] at h
    | cons b bs =>
      simp only [List.isPrefixOf, Bool.and_eq_true] at h ⊢
      exact ⟨h.1, ih bs y h.2⟩

theorem containsChars_here (pat b : List Char) : containsChars pat (pat ++ b) = true := by
  cases pat with
  | nil => cases b <;> simp [containsChars, List.isPrefixOf]
  | cons p ps => simp [containsChars, isPrefixOf_self_append]

theorem containsChars_cons (pat : List Char) (x : Char) (s : List Char)
    (h : containsChars pat s = true) : containsChars pat (x :: s) = true := by
  simp only [containsChars, Bool.or_eq_true]
  exact Or.inr h

theorem containsChars_append_left (pat x s : List Char)
    (h : containsChars pat s = true) : containsChars pat (x ++ s) = true := by
  induction x with
  | nil => exact h
  | cons c cs ih => exact containsChars_cons _ _ _ ih

theorem containsChars_append_right (pat : List Char) :
    ∀ s y : List Char, containsChars pat s = true → containsChars pat (s ++ y) = true := by
  intro s
  induction s with
  | nil =>
    intro y h
    simp only [containsChars, List.isEmpty_iff] at h
    subst h
    cases y <;> simp [containsChars, List.isPrefixOf]
  | cons c cs ih =>
    intro y h
    simp only [containsChars, Bool.or_eq_true] at h ⊢
    rcases h with h | h
    · exact Or.inl (isPrefixOf_extend _ _ _ h)
    · exact Or.inr (ih y h)

theorem containsChars_append (pat a b : List Char) :
    containsChars pat (a ++ pat ++ b) = true := by
  rw [List.append_assoc]
  exact containsChars_append_left _ _ _ (containsChars_here pat b)

theorem containsChars_of_decomp (pat hay pre suf : List Char)
    (h : hay = pre ++ (pat ++ suf)) : containsChars pat hay = true := by
  subst h
  exact containsChars_append_left _ _ _ (containsChars_here pat suf)

theorem Contains.mono_left (x s pat : String) (h : Contains s pat) :
    Contains (x ++ s) pat := by
  unfold Contains at *
  rw [data_append]
  exact containsChars_append_left _ _ _ h

theorem Contains.mono_right (s y pat : String) (h : Contains s pat) :
    Contains (s ++ y) pat := by
  unfold Contains at *
  rw [data_append]
  exact containsChars_append_right _ _ _ h

theorem Contains.self_suffix (x pat : String) : Contains (x ++ pat) pat := by
  unfold Contains
  rw [data_append]
  have := containsChars_append pat.data x.data []
  simpa using this

theorem Contains.refl (s : String) : Contains s s := by
  unfold Contains
  have := containsChars_here s.data []
  simpa using this

/-! ## File-system trees

The working directory populated by the `/generate` handler is modeled as a
finite tree of named entries; file contents (bytes) are modeled as `String`. -/

mutual
inductive FSTree where
  | file : String → FSTree
  | dir : Entries → FSTree
inductive Entries where
  | nil : Entries
  | cons : String → FSTree → Entries → Entries
end

/-- Names of the immediate entries of a directory. -/
def Entries.names : Entries → List String
  | .nil => []
  | .cons n _ r => n :: Entries.names r

mutual
/-- Looks up the file content stored at a relative path (a list of path
components) in a tree, mirroring how the files written by the handler are laid
out on disk. -/
def fetch : FSTree → List String → Option String
  | .file c, [] => some c
  | .file _, _ :: _ => none
  | .dir _, [] => none
  | .dir es, n :: p => fetchIn es n p
def fetchIn : Entries → String → List String → Option String
  | .nil, _, _ => none
  | .cons m t r, n, p => if m = n then fetch t p else fetchIn r n p
end

/-- Boolean no-duplicates test on a list of names. -/
def noDupB : List String → Bool
  | [] => true
  | n :: r => !(r.contains n) && noDupB r

mutual
/-- Well-formedness of a tree: sibling entry names are distinct (always true
for a real directory on disk). -/
def wf : FSTree → Bool
  | .file _ => true
  | .dir es => noDupB (Entries.names es) && wfEntries es
def wfEntries : Entries → Bool
  | .nil => true
  | .cons _ t r => wf t && wfEntries r
end

mutual
/-- Models `make_zip(source_dir)`: `os.walk` visits the directory top-down,
the loop writes every file with arcname `os.path.relpath(full, source_dir)`;
directories themselves produce no entry.  An archive is modeled as the list
of (relative path, content) entries in traversal order. -/
def make_zip : FSTree → List (List String × String)
  | .file _ => []
  | .dir es => zipFiles es ++ zipDirs es
def zipFiles : Entries → List (List String × String)
  | .nil => []
  | .cons n (.file c) r => ([n], c) :: zipFiles r
  | .cons _ (.dir _) r => zipFiles r
def zipDirs : Entries → List (List String × String)
  | .nil => []
  | .cons _ (.file _) r => zipDirs r
  | .cons n (.dir es) r =>
      (make_zip (.dir es)).map (fun pc => (n :: pc.1, pc.2)) ++ zipDirs r
end

/-! ## JSON values and the Grok client

`call_grok_system` posts to the Grok endpoint and digs the reply content out
of the parsed JSON body.  JSON documents are modeled by `JVal`; the network
interaction (the outcome of `httpx.post` / `raise_for_status` / `r.json()`)
is an explicit input `NetOutcome`. -/

mutual
inductive JVal where
  | null : JVal
  | bool : Bool → JVal
  | num : Int → JVal
  | str : String → JVal
  | arr : JArr → JVal
  | obj : JObj → JVal
inductive JArr where
  | nil : JArr
  | cons : JVal → JArr → JArr
inductive JObj where
  | nil : JObj
  | cons : String → JVal → JObj → JObj
end

/-- Models Python `dict.get(key, default)` on a JSON object. -/
def jGet (o : JObj) (k : String) (dflt : JVal) : JVal :=
  match o with
  | .nil => dflt
  | .cons k0 v r => if k0 = k then v else jGet r k dflt

/-- Python type name of a JSON value, used in exception messages. -/
def pyTypeName : JVal → String
  | .null => "NoneType"
  | .bool _ => "bool"
  | .num _ => "int"
  | .str _ => "str"
  | .arr _ => "list"
  | .obj _ => "dict"

/-- Models CPython's `str(e)` for the `AttributeError` raised by `x.get(...)`
on a non-dict value `x`. -/
def noGetAttrMsg (v : JVal) : String :=
  "\x27" ++ pyTypeName v ++ "\x27 object has no attribute \x27get\x27"

/-- Models CPython's `str(e)` for the `TypeError` raised by `x[0]` on a
non-subscriptable value `x`. -/
def notSubscriptableMsg (v : JVal) : String :=
  "\x27" ++ pyTypeName v ++ "\x27 object is not subscriptable"

/-- Python truthiness of a JSON value (used by the `x or json.dumps(data)`
expression). -/
def pyTruthy : JVal → Bool
  | .null => false
  | .bool b => b
  | .num i => i != 0
  | .str s => s != ""
  | .arr .nil => false
  | .arr (.cons _ _) => true
  | .obj .nil => false
  | .obj (.cons _ _ _) => true

/-- Hexadecimal digit character for `n < 16` (lowercase, as CPython emits). -/
def hexDigit (n : Nat) : Char :=
  if n < 10 then Char.ofNat (48 + n) else Char.ofNat (87 + n)

/-- Models `json.dumps` escaping of one character (defaults:
`ensure_ascii=True`; astral characters would use surrogate pairs, which are
not modeled). -/
def jsonEscapeChar (c : Char) : List Char :=
  if c = '"' then ['\\', '"']
  else if c = '\\' then ['\\', '\\']
  else if c = '\n' then ['\\', 'n']
  else if c = '\r' then ['\\', 'r']
  else if c = '\t' then ['\\', 't']
  else if c = '\x08' then ['\\', 'b']
  else if c = '\x0c' then ['\\', 'f']
  else if c.toNat < 32 ∨ c.toNat > 126 then
    ['\\', 'u', hexDigit (c.toNat / 4096 % 16), hexDigit (c.toNat / 256 % 16),
     hexDigit (c.toNat / 16 % 16), hexDigit (c.toNat % 16)]
  else [c]

/-- Models `json.dumps` escaping of a string body. -/
def jsonEscape (s : String) : String :=
  String.mk (s.data.map jsonEscapeChar).flatten

mutual
/-- Models `json.dumps(v)` with CPython's default separators. -/
def jsonDumps : JVal → String
  | .null => "null"
  | .bool true => "true"
  | .bool false => "false"
  | .num i => toString i
  | .str s => "\"" ++ jsonEscape s ++ "\""
  | .arr a => "[" ++ jsonDumpsArr a ++ "]"
  | .obj o => "\x7b" ++ jsonDumpsObj o ++ "\x7d"
def jsonDumpsArr : JArr → String
  | .nil => ""
  | .cons v .nil => jsonDumps v
  | .cons v (.cons w r) => jsonDumps v ++ ", " ++ jsonDumpsArr (.cons w r)
def jsonDumpsObj : JObj → String
  | .nil => ""
  | .cons k v .nil => "\"" ++ jsonEscape k ++ "\": " ++ jsonDumps v
  | .cons k v (.cons k2 v2 r) =>
      "\"" ++ jsonEscape k ++ "\": " ++ jsonDumps v ++ ", " ++ jsonDumpsObj (.cons k2 v2 r)
end

/-- Outcome of the guarded code up to and including `r.json()`: either some
exception was raised (carrying its `str(e)`), or a parsed JSON body. -/
inductive NetOutcome where
  | error : String → NetOutcome
  | success : JVal → NetOutcome

/-- Models the expression
`data.get("choices", [{}])[0].get("message", {}).get("content", "")`
inside the `try` block; `.error` carries the `str(e)` of the exception that
the evaluation raises (`IndexError` on an empty completion list, an
`AttributeError`/`TypeError`/`KeyError` when the shape is not dict/list). -/
def extractContent (data : JVal) : Except String JVal :=
  match data with
  | .obj fs =>
    match jGet fs "choices" (.arr (.cons (.obj .nil) .nil)) with
    | .arr .nil => .error "list index out of range"
    | .arr (.cons e _) =>
      (match e with
       | .obj efs =>
         (match jGet efs "message" (.obj .nil) with
          | .obj mfs => .ok (jGet mfs "content" (.str ""))
          | m => .error (noGetAttrMsg m))
       | _ => .error (noGetAttrMsg e))
    | .str s =>
        if s = "" then .error "string index out of range"
        else .error (noGetAttrMsg (.str s))
    | .obj _ => .error "0"
    | c => .error (notSubscriptableMsg c)
  | _ => .error (noGetAttrMsg data)

/-- The fallback string returned when no `GROK_API_KEY` is configured. -/
def grokNotConfiguredText (task narrative : String) : String :=
  "# GROK_NOT_CONFIGURED\n" ++ task ++ "\n\n" ++ narrative

/-- The tagged error string built by the `except` handler. -/
def grokErrorText (msg task narrative : String) : String :=
  "# GROK_ERROR\n" ++ msg ++ "\n\n" ++ task ++ "\n\n" ++ narrative

/-- Models `call_grok_system(narrative, task)`.  `apiKey` is the process-wide
`GROK_API_KEY` (`""` when unset, which is falsy in Python); `net` is the
outcome of the HTTP interaction, which is only consulted when a key is
configured.  Python ignores the `-> str` annotation, so the result is a
`JVal`: every modeled path yields `.str`, except a truthy non-string
`content` field, which Python would return as the raw object. -/
def call_grok_system (apiKey narrative task : String) (net : NetOutcome) : JVal :=
  if apiKey = "" then .str (grokNotConfiguredText task narrative)
  else
    match net with
    | .error msg => .str (grokErrorText msg task narrative)
    | .success data =>
      match extractContent data with
      | .error emsg => .str (grokErrorText emsg task narrative)
      | .ok v => if pyTruthy v then v else .str (jsonDumps data)

/-! ## Python string helpers used by the handler -/

/-- Models Python `str.lower` on one character, on the ASCII range only:
uppercase ASCII is mapped to lowercase and everything else is left
unchanged.  CPython's `str.lower` additionally applies the table-driven
Unicode case mapping to non-ASCII cased characters (with a context-sensitive
final-sigma rule, and U+0130 even lowering to two characters), which is NOT
modeled: on input containing non-ASCII cased characters this function
diverges from the program.  No theorem below depends on the value this
function produces outside the ASCII range. -/
def pyCharLower (c : Char) : Char :=
  if 65 ≤ c.toNat ∧ c.toNat ≤ 90 then Char.ofNat (c.toNat + 32) else c

/-- Models `coin_name.lower().replace(' ', '-')`: character-wise lowering
followed by the character-wise replacement (for a one-character pattern,
Python `str.replace` is exactly a character map).  Inherits the ASCII-only
caveat of `pyCharLower`: for coin names containing non-ASCII cased letters
the real program produces a different slug.  The slug only feeds the
`website_url` context field, whose value no theorem below inspects. -/
def slugOf (coin_name : String) : String :=
  String.mk ((coin_name.data.map pyCharLower).map (fun c => if c = ' ' then '-' else c))

/-- Line-boundary characters recognized by Python `str.splitlines`. -/
def isPyLineBreak (c : Char) : Bool :=
  c = '\n' || c = '\r' || c = '\x0b' || c = '\x0c' ||
  c = '\x1c' || c = '\x1d' || c = '\x1e' || c = '\x85' || c = '\u2028' || c = '\u2029'

/-- Models `s.splitlines()[0]` for nonempty `s`: the characters up to the
first line boundary. -/
def pyFirstLine (s : String) : String :=
  String.mk (s.data.takeWhile (fun c => !isPyLineBreak c))

/-- Models `pathlib.Path(filename).suffix`: the extension (with the dot) of
the final path component; empty when there is no dot, when the dot is the
first character of the name, or when it is the last character. -/
def pySuffix (filename : String) : String :=
  let base := (filename.data.reverse.takeWhile (fun c => c ≠ '/')).reverse
  let after := (base.reverse.takeWhile (fun c => c ≠ '.')).reverse
  if base.contains '.' = true ∧ after ≠ [] ∧ after.length + 1 < base.length then
    String.mk ('.' :: after)
  else ""

/-! ## Templates

The segments of `INDEX_HTML_TPL` between the Jinja2 placeholders.  The
default Jinja2 `Template` is used by the code, so: no autoescaping of
interpolated values, block tags render to nothing, the body of a false
`if` block renders to nothing, the undefined `video_path` is falsy, and the
single trailing newline of the template is stripped
(`keep_trailing_newline=False`). -/

def idxA : String := "<!doctype html>\n<html lang=\"en\">\n<head>\n  <meta charset=\"utf-8\">\n  <title>"

def idxB : String := " — Launchpad</title>\n  <meta name=\"description\" content=\""

def idxC : String := "\">\n  <meta name=\"viewport\" content=\"width=device-width,initial-scale=1\">\n  <style>\n    body\x7bfont-family:Inter,system-ui;display:flex;min-height:100vh;align-items:center;justify-content:center;background:#0b1020;color:#e6f2ff\x7d\n    .card\x7bmax-width:900px;padding:24px;border-radius:16px;background:rgba(255,255,255,0.04);box-shadow:0 6px 24px rgba(2,6,23,0.6)\x7d\n    h1\x7bfont-size:36px;margin-bottom:8px\x7d\n    p.lead\x7bopacity:.9\x7d\n    .media\x7bmargin-top:16px\x7d\n    .links a\x7bdisplay:inline-block;margin-right:12px;background:#0f1724;padding:8px 12px;border-radius:8px;text-decoration:none;color:#9be7a1\x7d\n  </style>\n</head>\n<body>\n  <div class=\"card\">\n    <h1>"

def idxD : String := " <small>("

def idxE : String := ")</small></h1>\n    <p class=\"lead\">"

def idxF : String := "</p>\n    <div class=\"media\">\n      "

def idxG : String := "\n      \n    </div>\n    <h3>Roadmap</h3>\n    <pre>"

def idxH : String := "</pre>\n    <div class=\"links\">\n      <a href=\""

def idxI : String := "\">Buy on Pump.fun</a>\n      <a href=\""

def idxJ : String := "\">Website</a>\n      <a href=\""

def idxK : String := "\">X</a>\n      <a href=\""

def idxL : String := "\">Telegram</a>\n    </div>\n  </div>\n</body>\n</html>"

/-- The `{% if image_path %}` block of the template: its body (the `img` tag
with the interpolated `image_path`) when `image_path` is truthy (a nonempty
string), nothing otherwise. -/
def mediaBlock (image_path : String) : String :=
  if image_path = "" then ""
  else "\n        <img src=\"" ++ image_path ++ "\" alt=\"hero\" style=\"max-width:100%;border-radius:12px\"/>\n      "

/-- The template context built by `generate` (the keyword arguments of
`Template(INDEX_HTML_TPL).render(**context)`). -/
structure Context where
  coin_name : String
  ticker : String
  tagline : String
  intro : String
  roadmap : String
  pump_fun : String
  x_url : String
  telegram_url : String
  website_url : String
  image_path : String

/-- Models `Template(INDEX_HTML_TPL).render(**context)` (no autoescape). -/
def renderIndexHtml (c : Context) : String :=
  idxA ++ c.coin_name ++ idxB ++ c.tagline ++ idxC ++ c.coin_name ++ idxD ++
  c.ticker ++ idxE ++ c.intro ++ idxF ++ mediaBlock c.image_path ++ idxG ++
  c.roadmap ++ idxH ++ c.pump_fun ++ idxI ++ c.website_url ++ idxJ ++
  c.x_url ++ idxK ++ c.telegram_url ++ idxL

/-- Models `context.get("image_filename")` in `render_website_files`: the
context dict built by `generate` only has the keys coin_name, ticker,
tagline, intro, roadmap, pump_fun, x_url, telegram_url, website_url and
image_path, so this lookup always yields `None`. -/
def ctxGet_image_filename (_ : Context) : Option String := none

/-- Models `render_website_files(context, outdir)`: the entries written under
`outdir/website`.  The `shutil.copy` branch is guarded by
`context.get("image_filename")`, which is always `None`, so only
`index.html` is written. -/
def render_website_files (c : Context) : Entries :=
  match ctxGet_image_filename c with
  | some _fn => Entries.cons "index.html" (.file (renderIndexHtml c)) Entries.nil
  | none => Entries.cons "index.html" (.file (renderIndexHtml c)) Entries.nil

/-- `DOCKERFILE_PY` from the source. -/
def DOCKERFILE_PY : String := "FROM python:3.11-slim\nWORKDIR /app\nCOPY requirements.txt .\nRUN pip install -r requirements.txt\nCOPY . .\nCMD [\"python3\",\"main.py\"]\n"

/-- `RENDER_YAML_SERVICE.format(service_name=...)` from the source. -/
def RENDER_YAML_SERVICE (service_name : String) : String :=
  "services:\n  - type: web\n    name: " ++ service_name ++ "\n    env: docker\n    plan: free\n    healthCheck:\n      path: /health\n"

/-- `REQUIREMENTS_PY` from the source. -/
def REQUIREMENTS_PY : String := "Flask==3.0.3\npyTelegramBotAPI==4.15.4\nhttpx==0.27.0\nwaitress==3.0.0\npsycopg2-binary==2.9.9\n"

/-- `BOT_MAIN_PY` from the source. -/
def BOT_MAIN_PY : String := "import os, logging, time\nfrom flask import Flask, request, abort\nimport telebot\nfrom logic import BotLogic\nfrom config import Config\nfrom waitress import serve\nlogging.basicConfig(level=logging.INFO)\napp = Flask(__name__)\nbot = telebot.TeleBot(Config.BOT_TOKEN(), threaded=False)\nlogic = BotLogic(bot)\n@app.route(f\x27/\x7bConfig.BOT_TOKEN()\x7d\x27, methods=[\x27POST\x27])\ndef webhook():\n    if request.headers.get(\x27content-type\x27)==\x27application/json\x27:\n        json_string = request.get_data().decode(\x27utf-8\x27)\n        update = telebot.types.Update.de_json(json_string)\n        bot.process_new_updates([update])\n        return \"OK\",200\n    else:\n        abort(403)\n@app.route(\x27/health\x27)\ndef health(): return \"\",204\nif __name__==\x27__main__\x27:\n    try:\n        bot.remove_webhook()\n        bot.set_webhook(url=f\"\x7bConfig.WEBHOOK_BASE_URL()\x7d/\x7bConfig.BOT_TOKEN()\x7d\")\n    except Exception as e:\n        logging.error(e)\n    serve(app, host=\"0.0.0.0\", port=int(os.environ.get(\"PORT\",10000)))\n"

/-- `BOT_LOGIC_PY` from the source. -/
def BOT_LOGIC_PY : String := "import random, logging, time\nfrom telebot.types import InlineKeyboardMarkup, InlineKeyboardButton\nfrom config import Config\nlogging.basicConfig(level=logging.INFO)\nclass BotLogic:\n    def __init__(self, bot):\n        self.bot = bot\n        self.coin_name = os.environ.get(\"COIN_NAME\",\"NPEPE\")\n        self.ticker = os.environ.get(\"TICKER\",\"NPEPE\")\n    def greet(self, message):\n        txt = f\"Welcome to \x7bself.coin_name\x7d! \x7bself.ticker\x7d — LFG!\"\n        self.bot.reply_to(message, txt)\n"

/-- `CONFIG_PY` from the source. -/
def CONFIG_PY : String := "import os\nclass Config:\n    @staticmethod\n    def BOT_TOKEN(): return os.environ.get(\"BOT_TOKEN\")\n    @staticmethod\n    def WEBHOOK_BASE_URL(): return os.environ.get(\"WEBHOOK_BASE_URL\",\"\")\n    @staticmethod\n    def GROUP_CHAT_ID(): return os.environ.get(\"GROUP_CHAT_ID\")\n    @staticmethod\n    def CONTRACT_ADDRESS(): return os.environ.get(\"CONTRACT_ADDRESS\",\"\")\n    @staticmethod\n    def PUMP_FUN_LINK(): return os.environ.get(\"PUMP_FUN_LINK\",\"\")\n    @staticmethod\n    def WEBSITE_URL(): return os.environ.get(\"WEBSITE_URL\",\"\")\n    @staticmethod\n    def TELEGRAM_URL(): return os.environ.get(\"TELEGRAM_URL\",\"\")\n"

/-- Models `render_bot_files(context, outdir, kind)`: the six files written
under `outdir/bot_<kind>`, in write order.  The context argument is accepted
and ignored, exactly as in the source. -/
def render_bot_files (_context : Context) (kind : String) : Entries :=
  Entries.cons "Dockerfile" (.file DOCKERFILE_PY)
    (Entries.cons "requirements.txt" (.file REQUIREMENTS_PY)
      (Entries.cons "render.yaml" (.file (RENDER_YAML_SERVICE ("npepe-" ++ kind)))
        (Entries.cons "config.py" (.file CONFIG_PY)
          (Entries.cons "main.py" (.file BOT_MAIN_PY)
            (Entries.cons "logic.py" (.file BOT_LOGIC_PY) Entries.nil)))))

/-! ## The `/generate` handler -/

/-- The form fields of `POST /generate` (defaults: coin_name "NEXTPEPE",
ticker "NPEPE", pump_fun "https://pump.fun/", x_url "https://x.com/",
telegram_url "https://t.me/").  `file` is the optional upload as
(filename, bytes). -/
structure GenRequest where
  narrative : String
  coin_name : String
  ticker : String
  pump_fun : String
  x_url : String
  telegram_url : String
  file : Option (String × String)

/-- The `task` string of the first Grok call. -/
def siteTask : String := "generate website intro, tagline, roadmap (short) in plain text"

/-- The `task` string of the second Grok call. -/
def botTask : String := "generate arrays of bot short replies: GREET_NEW_MEMBERS, HYPE, WISDOM, SCHEDULED_BUY in JSON"

/-- The context dict built by `generate`.  `image_path` is
`pathlib.Path(image_path).name if image_path else ""`, i.e. `media<ext>`
when an upload was saved (the upload is stored as `work/media{ext}` with
`ext = pathlib.Path(file.filename).suffix`). -/
def buildContext (req : GenRequest) (site_copy : String) : Context :=
  { coin_name := req.coin_name
    ticker := req.ticker
    tagline := if site_copy = "" then "" else pyFirstLine site_copy
    intro := site_copy
    roadmap := site_copy
    pump_fun := req.pump_fun
    x_url := req.x_url
    telegram_url := req.telegram_url
    website_url := "https://" ++ slugOf req.coin_name ++ ".example.app"
    image_path := match req.file with
      | some (fn, _) => "media" ++ pySuffix fn
      | none => "" }

/-- The root entry for the saved upload: `generate` writes the uploaded bytes
to `work/media{ext}` before anything else. -/
def mediaEntry (req : GenRequest) (rest : Entries) : Entries :=
  match req.file with
  | some (fn, bytes) => Entries.cons ("media" ++ pySuffix fn) (.file bytes) rest
  | none => rest

/-- The working tree populated by `generate` once both Grok results are in
hand: the saved upload (if any) at the root, `website/`, `bot_main/`,
`bot_sidekick/` and the raw `bot_texts.json` at the root, in write order. -/
def assemble (req : GenRequest) (site_copy bot_texts : String) : FSTree :=
  FSTree.dir
    (mediaEntry req
      (Entries.cons "website" (.dir (render_website_files (buildContext req site_copy)))
        (Entries.cons "bot_main" (.dir (render_bot_files (buildContext req site_copy) "main"))
          (Entries.cons "bot_sidekick" (.dir (render_bot_files (buildContext req site_copy) "sidekick"))
            (Entries.cons "bot_texts.json" (.file bot_texts) Entries.nil)))))

/-- Models the body of the `/generate` handler after the working directory
has been prepared: two Grok calls, context construction, rendering, and the
verbatim write of the second result to `bot_texts.json`.  When a Grok call
returns a non-string object (truthy non-string `content`), the handler would
raise on `site_copy.splitlines()` or on writing `bot_texts`; that failure is
modeled as `none`. -/
def generate (apiKey : String) (req : GenRequest) (netSite netBot : NetOutcome) :
    Option FSTree :=
  match call_grok_system apiKey req.narrative siteTask netSite,
        call_grok_system apiKey req.narrative botTask netBot with
  | .str site_copy, .str bot_texts => some (assemble req site_copy bot_texts)
  | _, _ => none

/-- Models lines 208-211 of the handler: `prior` is whatever tree already
sits at the work path `TMP_DIR/gen_<uid>`.  `if work.exists():
shutil.rmtree(work)` removes it, and `work.mkdir(parents=True)` then creates
a fresh empty directory, so the population always starts from an empty tree
and `prior` never contributes. -/
def generate_handler (prior : Option FSTree) (apiKey : String) (req : GenRequest)
    (netSite netBot : NetOutcome) : Option FSTree :=
  match prior with
  | some _ => generate apiKey req netSite netBot
  | none => generate apiKey req netSite netBot

/-- The archive streamed back by the handler: `make_zip` over the populated
working tree. -/
def generate_archive (apiKey : String) (req : GenRequest) (netSite netBot : NetOutcome) :
    Option (List (List String × String)) :=
  (generate apiKey req netSite netBot).map make_zip

/-! ## Generic helper lemmas -/

theorem append_eq_nil_left {α : Type} {l l2 : List α} (h : l ++ l2 = []) : l = [] := by
  cases l with
  | nil => rfl
  | cons a r => simp at h

theorem grokNotConfigured_ne_empty (task narrative : String) :
    grokNotConfiguredText task narrative ≠ "" := by
  intro h
  have h2 : ((("# GROK_NOT_CONFIGURED\n" ++ task) ++ "\n\n") ++ narrative).data = ([] : List Char) :=
    congrArg String.data h
  rw [data_append, data_append, data_append] at h2
  have h3 := append_eq_nil_left (append_eq_nil_left (append_eq_nil_left h2))
  exact absurd h3 (by decide)

theorem media_append_ne (e : String) (s : String) (h : s.data.head? ≠ some 'm') :
    ("media" ++ e) ≠ s := by
  intro he
  apply h
  rw [← he, data_append]
  rfl

theorem media_append_ne_empty (e : String) : ("media" ++ e) ≠ "" := by
  intro he
  have h2 : ("media" ++ e).data = ([] : List Char) := congrArg String.data he
  rw [data_append] at h2
  exact absurd (append_eq_nil_left h2) (by decide)

/-! ## C4: generation disabled -/

/-- C4: with no credential configured, `call_grok_system` returns the tagged
`# GROK_NOT_CONFIGURED` placeholder embedding the task description and the
narrative; the result does not depend on the network outcome (no network
contact), and the placeholder is never empty. -/
theorem c4_grok_not_configured (narrative task : String) (net net2 : NetOutcome) :
    call_grok_system "" narrative task net = .str (grokNotConfiguredText task narrative)
    ∧ call_grok_system "" narrative task net = call_grok_system "" narrative task net2
    ∧ Contains (grokNotConfiguredText task narrative) task
    ∧ Contains (grokNotConfiguredText task narrative) narrative
    ∧ grokNotConfiguredText task narrative ≠ "" := by
  refine ⟨by simp [call_grok_system], by simp [call_grok_system], ?_, ?_, grokNotConfigured_ne_empty task narrative⟩
  · unfold grokNotConfiguredText
    apply Contains.mono_right
    apply Contains.mono_right
    exact Contains.self_suffix _ _
  · unfold grokNotConfiguredText
    exact Contains.self_suffix _ _

/-- C4 witness: the theorem at a concrete narrative, task and two distinct
network outcomes. -/
theorem c4_witness :
    call_grok_system "" "frog coin" "copy" (.error "boom")
      = .str (grokNotConfiguredText "copy" "frog coin")
    ∧ call_grok_system "" "frog coin" "copy" (.error "boom")
      = call_grok_system "" "frog coin" "copy" (.success JVal.null)
    ∧ Contains (grokNotConfiguredText "copy" "frog coin") "copy"
    ∧ Contains (grokNotConfiguredText "copy" "frog coin") "frog coin"
    ∧ grokNotConfiguredText "copy" "frog coin" ≠ "" :=
  c4_grok_not_configured "frog coin" "copy" (.error "boom") (.success JVal.null)

/-! ## C5: provider failures are absorbed -/

/-- C5: with a credential configured, any transport/timeout/status failure
(modeled as `NetOutcome.error msg` with `msg = str(e)`) makes
`call_grok_system` return the tagged `# GROK_ERROR` string embedding the
exception description; the failure never propagates (the function totally
returns this string). -/
theorem c5_grok_error_absorbed (apiKey narrative task msg : String) (hk : apiKey ≠ "") :
    call_grok_system apiKey narrative task (.error msg)
      = .str (grokErrorText msg task narrative)
    ∧ Contains (grokErrorText msg task narrative) msg := by
  constructor
  · simp [call_grok_system, hk]
  · unfold grokErrorText
    apply Contains.mono_right
    apply Contains.mono_right
    apply Contains.mono_right
    apply Contains.mono_right
    exact Contains.self_suffix _ _

/-- C5 witness: the theorem at a concrete key, narrative, task and exception
message. -/
theorem c5_witness :
    call_grok_system "sk-key" "frog coin" "copy" (.error "timed out")
      = .str (grokErrorText "timed out" "copy" "frog coin")
    ∧ Contains (grokErrorText "timed out" "copy" "frog coin") "timed out" :=
  c5_grok_error_absorbed "sk-key" "frog coin" "copy" "timed out" (by decide)

/-! ## C6: response envelope extraction -/

/-- C6 (amended): with a credential configured, a successful response whose
first completion has a nonempty string `content` yields that content; a
first completion missing the `message`/`content` fields yields the
serialization of the entire raw response; but an empty completion list does
NOT fall back to the serialization — it raises `IndexError` inside the
`try`, which is caught and yields the tagged `# GROK_ERROR` string. -/
theorem c6_envelope_extraction (key n t s : String) (rest : JArr)
    (hk : key ≠ "") (hs : s ≠ "") :
    call_grok_system key n t (.success (JVal.obj (.cons "choices"
        (.arr (.cons (.obj (.cons "message" (.obj (.cons "content" (.str s) .nil)) .nil)) rest))
        .nil)))
      = .str s
    ∧ call_grok_system key n t (.success (JVal.obj (.cons "choices"
        (.arr (.cons (.obj .nil) .nil)) .nil)))
      = .str (jsonDumps (JVal.obj (.cons "choices" (.arr (.cons (.obj .nil) .nil)) .nil)))
    ∧ call_grok_system key n t (.success (JVal.obj (.cons "choices" (.arr .nil) .nil)))
      = .str (grokErrorText "list index out of range" t n) := by
  refine ⟨?_, ?_, ?_⟩
  · simp [call_grok_system, hk, extractContent, jGet, pyTruthy, hs]
  · simp [call_grok_system, hk, extractContent, jGet, pyTruthy]
  · simp [call_grok_system, hk, extractContent, jGet]

/-- C6 witness: the theorem at a concrete key and content string. -/
theorem c6_witness :
    call_grok_system "sk-key" "frog coin" "replies" (.success (JVal.obj (.cons "choices"
        (.arr (.cons (.obj (.cons "message" (.obj (.cons "content" (.str "LFG!") .nil)) .nil))
          .nil)) .nil)))
      = .str "LFG!"
    ∧ call_grok_system "sk-key" "frog coin" "replies" (.success (JVal.obj (.cons "choices"
        (.arr (.cons (.obj .nil) .nil)) .nil)))
      = .str (jsonDumps (JVal.obj (.cons "choices" (.arr (.cons (.obj .nil) .nil)) .nil)))
    ∧ call_grok_system "sk-key" "frog coin" "replies" (.success (JVal.obj (.cons "choices"
        (.arr .nil) .nil)))
      = .str (grokErrorText "list index out of range" "replies" "frog coin") :=
  c6_envelope_extraction "sk-key" "frog coin" "replies" "LFG!" .nil (by decide) (by decide)

/-- C6 counterexample: at an empty completion list, the result is the tagged
`# GROK_ERROR` string (the caught `IndexError`), not the serialization of
the raw response as the claim states. -/
theorem c6_counterexample :
    call_grok_system "k" "n" "t" (.success (JVal.obj (.cons "choices" (.arr .nil) .nil)))
      = .str (grokErrorText "list index out of range" "t" "n")
    ∧ call_grok_system "k" "n" "t" (.success (JVal.obj (.cons "choices" (.arr .nil) .nil)))
      ≠ .str (jsonDumps (JVal.obj (.cons "choices" (.arr .nil) .nil))) := by
  constructor
  · rfl
  · intro h
    rw [show call_grok_system "k" "n" "t" (.success (JVal.obj (.cons "choices" (.arr .nil) .nil)))
          = .str (grokErrorText "list index out of range" "t" "n") from rfl] at h
    exact absurd (JVal.str.inj h) (by decide)

/-! ## C9: bot project files depend only on the role -/

/-- C9: the six bot project files are identical for any two template
contexts (they depend only on the role label `kind`), and the deployment
descriptor names the service `npepe-<kind>`. -/
theorem c9_bot_files_depend_only_on_role (c1 c2 : Context) (kind : String) :
    render_bot_files c1 kind = render_bot_files c2 kind
    ∧ fetchIn (render_bot_files c1 kind) "render.yaml" []
        = some (RENDER_YAML_SERVICE ("npepe-" ++ kind))
    ∧ Contains (RENDER_YAML_SERVICE ("npepe-" ++ kind)) ("name: npepe-" ++ kind) := by
  refine ⟨rfl, rfl, ?_⟩
  have hA : ("services:\n  - type: web\n    name: " : String)
      = "services:\n  - type: web\n    " ++ "name: " := by
    decide
  have hN : ("name: npepe-" : String) = "name: " ++ "npepe-" := by
    decide
  have key : RENDER_YAML_SERVICE ("npepe-" ++ kind)
      = ("services:\n  - type: web\n    " ++ (("name: npepe-" ++ kind)
          ++ "\n    env: docker\n    plan: free\n    healthCheck:\n      path: /health\n")) := by
    simp only [RENDER_YAML_SERVICE, hA, hN, sappend_assoc]
  rw [key]
  apply Contains.mono_left
  apply Contains.mono_right
  exact Contains.refl _

/-- C9 witness: the theorem at two distinct concrete contexts and the role
`"main"`. -/
theorem c9_witness :
    render_bot_files ⟨"A", "B", "C", "D", "E", "F", "G", "H", "I", "J"⟩ "main"
      = render_bot_files ⟨"a", "b", "c", "d", "e", "f", "g", "h", "i", "j"⟩ "main"
    ∧ fetchIn (render_bot_files ⟨"A", "B", "C", "D", "E", "F", "G", "H", "I", "J"⟩ "main")
        "render.yaml" [] = some (RENDER_YAML_SERVICE ("npepe-" ++ "main"))
    ∧ Contains (RENDER_YAML_SERVICE ("npepe-" ++ "main")) ("name: npepe-" ++ "main") :=
  c9_bot_files_depend_only_on_role _ _ "main"

/-! ## C10: pre-existing working directory -/

/-- C10: the handler removes any directory already sitting at the derived
work path before recreating it, so the populated tree (and hence the
archive) does not depend on what was there before: the result equals the
result from a fresh path. -/
theorem c10_stale_workdir_removed (prior prior2 : Option FSTree) (apiKey : String)
    (req : GenRequest) (netS netB : NetOutcome) :
    generate_handler prior apiKey req netS netB
      = generate_handler prior2 apiKey req netS netB
    ∧ generate_handler prior apiKey req netS netB = generate apiKey req netS netB
    ∧ (generate_handler prior apiKey req netS netB).map make_zip
      = generate_archive apiKey req netS netB := by
  cases prior <;> cases prior2 <;> exact ⟨rfl, rfl, rfl⟩

/-- C10 witness: the theorem with a concrete stale tree at the work path
versus a fresh path. -/
theorem c10_witness :
    generate_handler (some (FSTree.dir (Entries.cons "stale.txt" (.file "old") Entries.nil)))
        "" ⟨"n", "c", "t", "p", "x", "g", none⟩ (.error "e") (.error "e")
      = generate_handler none "" ⟨"n", "c", "t", "p", "x", "g", none⟩ (.error "e") (.error "e")
    ∧ generate_handler (some (FSTree.dir (Entries.cons "stale.txt" (.file "old") Entries.nil)))
        "" ⟨"n", "c", "t", "p", "x", "g", none⟩ (.error "e") (.error "e")
      = generate "" ⟨"n", "c", "t", "p", "x", "g", none⟩ (.error "e") (.error "e")
    ∧ (generate_handler (some (FSTree.dir (Entries.cons "stale.txt" (.file "old") Entries.nil)))
        "" ⟨"n", "c", "t", "p", "x", "g", none⟩ (.error "e") (.error "e")).map make_zip
      = generate_archive "" ⟨"n", "c", "t", "p", "x", "g", none⟩ (.error "e") (.error "e") :=
  c10_stale_workdir_removed _ none "" _ (.error "e") (.error "e")

/-! ## Shared lemmas for the working-tree layout -/

theorem fetchIn_cons (m : String) (t : FSTree) (r : Entries) (n : String) (p : List String) :
    fetchIn (Entries.cons m t r) n p = if m = n then fetch t p else fetchIn r n p := by
  simp only [fetchIn]

theorem fetch_dir_cons (m : String) (t : FSTree) (r : Entries) (n : String) (p : List String) :
    fetch (FSTree.dir (Entries.cons m t r)) (n :: p)
      = if m = n then fetch t p else fetchIn r n p := by
  rw [show fetch (FSTree.dir (Entries.cons m t r)) (n :: p)
        = fetchIn (Entries.cons m t r) n p from rfl, fetchIn_cons]

/-- Where the three root lookups used by the claims land in the tree built by
`assemble`: the `website` subtree, the verbatim `bot_texts.json`, and the
saved upload `media<ext>`. -/
theorem fetch_assemble_cases (req : GenRequest) (sc bt : String) :
    (∀ p, fetch (assemble req sc bt) ("website" :: p)
        = fetch (FSTree.dir (render_website_files (buildContext req sc))) p)
    ∧ fetch (assemble req sc bt) ["bot_texts.json"] = some bt
    ∧ (∀ fn bytes, req.file = some (fn, bytes) →
        fetch (assemble req sc bt) ["media" ++ pySuffix fn] = some bytes) := by
  obtain ⟨nar, cn, tk, pf, xu, tu, fl⟩ := req
  cases fl with
  | none =>
    exact ⟨fun p => rfl, rfl, fun fn bytes hfb => Option.noConfusion hfb⟩
  | some fb =>
    obtain ⟨fn0, b0⟩ := fb
    refine ⟨fun p => ?_, ?_, fun fn bytes hfb => ?_⟩
    · simp only [assemble, mediaEntry]
      rw [fetch_dir_cons, if_neg (media_append_ne _ _ (by decide)), fetchIn_cons, if_pos rfl]
    · simp only [assemble, mediaEntry]
      rw [fetch_dir_cons, if_neg (media_append_ne _ _ (by decide))]
      rfl
    · have hfb2 : some (fn0, b0) = some (fn, bytes) := hfb
      cases hfb2
      simp only [assemble, mediaEntry]
      rw [fetch_dir_cons, if_pos rfl]
      rfl

/-! ## C1: no HTML escaping of narrative-derived text -/

/-- If a pattern occurs in the `intro` field, it occurs verbatim in the
rendered page: the default Jinja2 `Template` interpolates without escaping. -/
theorem render_contains_intro (c : Context) (pat : String) (h : Contains c.intro pat) :
    Contains (renderIndexHtml c) pat := by
  unfold renderIndexHtml
  apply Contains.mono_right
  apply Contains.mono_right
  apply Contains.mono_right
  apply Contains.mono_right
  apply Contains.mono_right
  apply Contains.mono_right
  apply Contains.mono_right
  apply Contains.mono_right
  apply Contains.mono_right
  apply Contains.mono_right
  apply Contains.mono_right
  apply Contains.mono_right
  apply Contains.mono_right
  exact Contains.mono_left _ _ _ h

/-- The generated page for a request handled with no credential: the
narrative flows verbatim (through the `# GROK_NOT_CONFIGURED` fallback copy)
into `website/index.html`. -/
theorem index_contains_of_narrative (req : GenRequest) (netS netB : NetOutcome) (t : FSTree)
    (hg : generate "" req netS netB = some t) (pat : String)
    (h : Contains req.narrative pat) :
    ∃ idx, fetch t ["website", "index.html"] = some idx ∧ Contains idx pat := by
  have hgen : generate "" req netS netB
      = some (assemble req (grokNotConfiguredText siteTask req.narrative)
          (grokNotConfiguredText botTask req.narrative)) := rfl
  rw [hgen] at hg
  cases hg
  refine ⟨renderIndexHtml (buildContext req (grokNotConfiguredText siteTask req.narrative)),
    ?_, ?_⟩
  · rw [(fetch_assemble_cases req _ _).1 ["index.html"]]
    rfl
  · apply render_contains_intro
    show Contains (grokNotConfiguredText siteTask req.narrative) pat
    unfold grokNotConfiguredText
    exact Contains.mono_left _ _ _ h

/-- C1 (amended): the code performs no HTML escaping.  For every request
whose narrative contains `<script>`, handled with generation disabled, the
rendered `website/index.html` contains the raw `<script>` markup verbatim. -/
theorem c1_no_html_escaping (req : GenRequest) (netS netB : NetOutcome) (t : FSTree)
    (hg : generate "" req netS netB = some t)
    (h : Contains req.narrative "<script>") :
    ∃ idx, fetch t ["website", "index.html"] = some idx ∧ Contains idx "<script>" :=
  index_contains_of_narrative req netS netB t hg "<script>" h

/-- The request used to witness C1. -/
def c1Req : GenRequest :=
  ⟨"hello <script>world", "NextPepe", "NPEPE", "https://pump.fun/", "https://x.com/",
   "https://t.me/", none⟩

/-- C1 witness: the amended theorem at a concrete request. -/
theorem c1_witness :
    Contains c1Req.narrative "<script>"
    ∧ ∃ idx, fetch (assemble c1Req (grokNotConfiguredText siteTask c1Req.narrative)
          (grokNotConfiguredText botTask c1Req.narrative)) ["website", "index.html"]
        = some idx ∧ Contains idx "<script>" :=
  ⟨by decide, c1_no_html_escaping c1Req (.error "e") (.error "e") _ rfl (by decide)⟩

/-- The request used to refute C1 as stated. -/
def reqXss : GenRequest :=
  ⟨"<script>alert(1)</script>", "NEXTPEPE", "NPEPE", "https://pump.fun/", "https://x.com/",
   "https://t.me/", none⟩

/-- C1 counterexample: a concrete request whose narrative contains
`<script>` yields an `index.html` that contains the raw `<script>` markup —
the claim says the page must never contain it. -/
theorem c1_counterexample :
    ∃ idx, fetch (assemble reqXss (grokNotConfiguredText siteTask reqXss.narrative)
          (grokNotConfiguredText botTask reqXss.narrative)) ["website", "index.html"]
        = some idx ∧ Contains idx "<script>" :=
  index_contains_of_narrative reqXss (.error "net") (.error "net") _ rfl "<script>" (by decide)

/-! ## C2: bot_texts.json is the raw generator output -/

/-- C2 (amended): the handler never parses the structured reply and has no
default reply set; whatever string the Generator returns for the bot-texts
task is written verbatim as `bot_texts.json` (at the archive root, not in a
bot folder). -/
theorem c2_bot_texts_verbatim (apiKey : String) (req : GenRequest) (netS netB : NetOutcome)
    (sc bt : String)
    (hs : call_grok_system apiKey req.narrative siteTask netS = .str sc)
    (hb : call_grok_system apiKey req.narrative botTask netB = .str bt) :
    generate apiKey req netS netB = some (assemble req sc bt)
    ∧ fetch (assemble req sc bt) ["bot_texts.json"] = some bt := by
  constructor
  · unfold generate
    rw [hs, hb]
  · exact (fetch_assemble_cases req sc bt).2.1

/-- The request used to witness C2. -/
def reqC2w : GenRequest := ⟨"frog", "NextPepe", "NPEPE", "p", "x", "t", none⟩

/-- C2 witness: the amended theorem at a concrete request with generation
disabled. -/
theorem c2_witness :
    generate "" reqC2w (.error "a") (.error "b")
      = some (assemble reqC2w (grokNotConfiguredText siteTask reqC2w.narrative)
          (grokNotConfiguredText botTask reqC2w.narrative))
    ∧ fetch (assemble reqC2w (grokNotConfiguredText siteTask reqC2w.narrative)
          (grokNotConfiguredText botTask reqC2w.narrative)) ["bot_texts.json"]
      = some (grokNotConfiguredText botTask reqC2w.narrative) :=
  c2_bot_texts_verbatim "" reqC2w (.error "a") (.error "b") _ _ rfl rfl

/-- The request and the non-JSON structured reply used to refute C2. -/
def reqC2 : GenRequest := ⟨"frog coin", "NextPepe", "NPEPE", "p", "x", "t", none⟩

/-- A structured-reply text that is not valid JSON (prose, not a JSON
document). -/
def c2Raw : String := "Here are some replies: LFG, WAGMI, moon soon."

/-- The provider response whose first completion content is `c2Raw`. -/
def c2NetB : NetOutcome :=
  .success (JVal.obj (.cons "choices" (.arr (.cons (.obj (.cons "message"
    (.obj (.cons "content" (.str c2Raw) .nil)) .nil)) .nil)) .nil))

/-- C2 counterexample: when the structured-reply call returns non-JSON prose,
the emitted `bot_texts.json` is that raw text itself — not a fixed default
reply set (it does not even mention the required categories). -/
theorem c2_counterexample :
    ∃ t, generate "k" reqC2 (.error "boom") c2NetB = some t
      ∧ fetch t ["bot_texts.json"] = some c2Raw
      ∧ ¬ Contains c2Raw "greeting" ∧ ¬ Contains c2Raw "wisdom" :=
  ⟨_, rfl, rfl, by decide, by decide⟩

/-! ## C3: where the uploaded media ends up -/

/-- If the pattern occurs in the `image_path` attribute position, the
rendered page references it: the `img` tag carries `src="<image_path>"`. -/
theorem contains_mediaBlock (ip : String) (h : ip ≠ "") :
    Contains (mediaBlock ip) ("src=\"" ++ ip ++ "\"") := by
  unfold mediaBlock
  rw [if_neg h]
  have hL : ("\n        <img src=\"" : String) = "\n        <img " ++ "src=\"" := by decide
  have hT : ("\" alt=\"hero\" style=\"max-width:100%;border-radius:12px\"/>\n      " : String)
      = "\"" ++ " alt=\"hero\" style=\"max-width:100%;border-radius:12px\"/>\n      " := by
    decide
  have key : ("\n        <img src=\"" ++ ip
        ++ "\" alt=\"hero\" style=\"max-width:100%;border-radius:12px\"/>\n      " : String)
      = "\n        <img " ++ ((("src=\"" ++ ip) ++ "\"")
          ++ " alt=\"hero\" style=\"max-width:100%;border-radius:12px\"/>\n      ") := by
    simp only [hL, hT, sappend_assoc]
  rw [key]
  apply Contains.mono_left
  apply Contains.mono_right
  exact Contains.refl _

theorem render_contains_src (c : Context) (h : c.image_path ≠ "") :
    Contains (renderIndexHtml c) ("src=\"" ++ c.image_path ++ "\"") := by
  unfold renderIndexHtml
  apply Contains.mono_right
  apply Contains.mono_right
  apply Contains.mono_right
  apply Contains.mono_right
  apply Contains.mono_right
  apply Contains.mono_right
  apply Contains.mono_right
  apply Contains.mono_right
  apply Contains.mono_right
  apply Contains.mono_right
  apply Contains.mono_right
  exact Contains.mono_left _ _ _ (contains_mediaBlock _ h)

/-- C3 (amended): the uploaded bytes are persisted at the working-tree ROOT
as `media<ext>` (the extension is preserved, the original name is not), the
archive contains them at that root path — not under the website media
subpath, where nothing is stored — and `index.html` references the bare
basename `media<ext>`. -/
theorem c3_media_at_root (req : GenRequest) (sc bt fn bytes : String)
    (hf : req.file = some (fn, bytes)) :
    fetch (assemble req sc bt) ["media" ++ pySuffix fn] = some bytes
    ∧ (["media" ++ pySuffix fn], bytes) ∈ make_zip (assemble req sc bt)
    ∧ fetch (assemble req sc bt) ["website", "media" ++ pySuffix fn] = none
    ∧ fetch (assemble req sc bt) ["website", "media", "media" ++ pySuffix fn] = none
    ∧ Contains (renderIndexHtml (buildContext req sc))
        ("src=\"" ++ ("media" ++ pySuffix fn) ++ "\"") := by
  obtain ⟨nar, cn, tk, pf, xu, tu, fl⟩ := req
  have hfl : fl = some (fn, bytes) := hf
  subst hfl
  have hip : (buildContext ⟨nar, cn, tk, pf, xu, tu, some (fn, bytes)⟩ sc).image_path
      = "media" ++ pySuffix fn := rfl
  refine ⟨(fetch_assemble_cases _ sc bt).2.2 fn bytes rfl, ?_, ?_, ?_, ?_⟩
  · simp only [assemble, mediaEntry, make_zip, zipFiles]
    exact List.mem_append_left _ (List.mem_cons_self _ _)
  · rw [(fetch_assemble_cases _ sc bt).1 ["media" ++ pySuffix fn]]
    simp only [render_website_files, ctxGet_image_filename]
    rw [fetch_dir_cons, if_neg (fun hh => media_append_ne (pySuffix fn) "index.html"
      (by decide) hh.symm)]
    rfl
  · rw [(fetch_assemble_cases _ sc bt).1 ["media", "media" ++ pySuffix fn]]
    rfl
  · rw [← hip]
    exact render_contains_src _ (by rw [hip]; exact media_append_ne_empty _)

/-- The request used to witness C3's amended theorem. -/
def reqC3 : GenRequest :=
  ⟨"frog", "NextPepe", "NPEPE", "p", "x", "t", some ("logo.png", "PNGBYTES00")⟩

/-- C3 witness: the amended theorem at a concrete request with a PNG-like
upload. -/
theorem c3_witness :
    fetch (assemble reqC3 "copy" "texts") ["media" ++ pySuffix "logo.png"] = some "PNGBYTES00"
    ∧ (["media" ++ pySuffix "logo.png"], "PNGBYTES00")
        ∈ make_zip (assemble reqC3 "copy" "texts")
    ∧ fetch (assemble reqC3 "copy" "texts") ["website", "media" ++ pySuffix "logo.png"] = none
    ∧ fetch (assemble reqC3 "copy" "texts")
        ["website", "media", "media" ++ pySuffix "logo.png"] = none
    ∧ Contains (renderIndexHtml (buildContext reqC3 "copy"))
        ("src=\"" ++ ("media" ++ pySuffix "logo.png") ++ "\"") :=
  c3_media_at_root reqC3 "copy" "texts" "logo.png" "PNGBYTES00" rfl

/-- The request used to refute C3 as stated. -/
def reqC3x : GenRequest :=
  ⟨"frog", "NextPepe", "NPEPE", "p", "x", "t", some ("logo.png", "PNGBYTES00")⟩

/-- C3 counterexample: with a 10-byte PNG-like upload, the archive holds the
bytes at the root path `media.png`; nothing is stored under the website media
subpath (`website/media.png`, `website/media/logo.png` and
`website/media/media.png` are all absent), contradicting the claim that the
upload is persisted under the website media path. -/
theorem c3_counterexample :
    ∃ t, generate "" reqC3x (.error "e") (.error "e") = some t
      ∧ fetch t ["media.png"] = some "PNGBYTES00"
      ∧ fetch t ["website", "media.png"] = none
      ∧ fetch t ["website", "media", "logo.png"] = none
      ∧ fetch t ["website", "media", "media.png"] = none
      ∧ (make_zip t).map Prod.fst
        = [["media.png"], ["bot_texts.json"], ["website", "index.html"],
           ["bot_main", "Dockerfile"], ["bot_main", "requirements.txt"],
           ["bot_main", "render.yaml"], ["bot_main", "config.py"], ["bot_main", "main.py"],
           ["bot_main", "logic.py"], ["bot_sidekick", "Dockerfile"],
           ["bot_sidekick", "requirements.txt"], ["bot_sidekick", "render.yaml"],
           ["bot_sidekick", "config.py"], ["bot_sidekick", "main.py"],
           ["bot_sidekick", "logic.py"]] :=
  ⟨_, rfl, rfl, rfl, rfl, rfl, rfl⟩

/-! ## C7: the archive is a faithful image of the working tree -/

theorem zipFiles_shape : ∀ (es : Entries) (p : List String) (c : String),
    (p, c) ∈ zipFiles es → ∃ n, p = [n] ∧ n ∈ Entries.names es
  | .nil, p, c, h => by simp [zipFiles] at h
  | .cons n (.file c0) r, p, c, h => by
      rw [show zipFiles (Entries.cons n (.file c0) r) = ([n], c0) :: zipFiles r from rfl,
        List.mem_cons] at h
      rcases h with h | h
      · have hp := congrArg Prod.fst h
        simp only at hp
        exact ⟨n, hp, by simp [Entries.names]⟩
      · obtain ⟨m, hm, hmem⟩ := zipFiles_shape r p c h
        exact ⟨m, hm, by simp [Entries.names, hmem]⟩
  | .cons n (.dir es2) r, p, c, h => by
      rw [show zipFiles (Entries.cons n (.dir es2) r) = zipFiles r from rfl] at h
      obtain ⟨m, hm, hmem⟩ := zipFiles_shape r p c h
      exact ⟨m, hm, by simp [Entries.names, hmem]⟩

theorem zipDirs_shape : ∀ (es : Entries) (p : List String) (c : String),
    (p, c) ∈ zipDirs es → ∃ n q, p = n :: q ∧ n ∈ Entries.names es
  | .nil, p, c, h => by simp [zipDirs] at h
  | .cons n (.file c0) r, p, c, h => by
      rw [show zipDirs (Entries.cons n (.file c0) r) = zipDirs r from rfl] at h
      obtain ⟨m, q, hm, hmem⟩ := zipDirs_shape r p c h
      exact ⟨m, q, hm, by simp [Entries.names, hmem]⟩
  | .cons n (.dir es2) r, p, c, h => by
      rw [show zipDirs (Entries.cons n (.dir es2) r)
          = (make_zip (FSTree.dir es2)).map (fun pc => (n :: pc.1, pc.2)) ++ zipDirs r from rfl,
        List.mem_append] at h
      rcases h with h | h
      · rw [List.mem_map] at h
        obtain ⟨⟨q, c2⟩, _, heq⟩ := h
        have hp := congrArg Prod.fst heq
        simp only at hp
        exact ⟨n, q, hp.symm, by simp [Entries.names]⟩
      · obtain ⟨m, q, hm, hmem⟩ := zipDirs_shape r p c h
        exact ⟨m, q, hm, by simp [Entries.names, hmem]⟩

theorem make_zip_paths_ne_nil (t : FSTree) (p : List String) (c : String)
    (h : (p, c) ∈ make_zip t) : p ≠ [] := by
  cases t with
  | file c0 => simp [make_zip] at h
  | dir es =>
    rw [show make_zip (FSTree.dir es) = zipFiles es ++ zipDirs es from rfl,
      List.mem_append] at h
    rcases h with h | h
    · obtain ⟨n, hp, -⟩ := zipFiles_shape es p c h
      simp [hp]
    · obtain ⟨n, q, hp, -⟩ := zipDirs_shape es p c h
      simp [hp]

theorem head_mem_of_mem_zip_entries (r : Entries) (n : String) (p : List String) (c : String)
    (h : (n :: p, c) ∈ zipFiles r ++ zipDirs r) : n ∈ Entries.names r := by
  rw [List.mem_append] at h
  rcases h with h | h
  · obtain ⟨n2, hp2, hmem⟩ := zipFiles_shape r _ c h
    have hn : n = n2 := by
      have := congrArg List.head? hp2
      simpa using this
    rwa [hn]
  · obtain ⟨n2, q, hp2, hmem⟩ := zipDirs_shape r _ c h
    have hn : n = n2 := by
      have := congrArg List.head? hp2
      simpa using this
    rwa [hn]

theorem fetchIn_eq_none_of_not_mem : ∀ (es : Entries) (n : String) (p : List String),
    n ∉ Entries.names es → fetchIn es n p = none
  | .nil, _, _, _ => rfl
  | .cons m t r, n, p, h => by
      have h2 : ¬(n = m ∨ n ∈ Entries.names r) := by
        simpa [Entries.names] using h
      rw [not_or] at h2
      rw [fetchIn_cons, if_neg (fun he => h2.1 he.symm)]
      exact fetchIn_eq_none_of_not_mem r n p h2.2

theorem noDupB_cons (n : String) (r : List String) (h : noDupB (n :: r) = true) :
    n ∉ r ∧ noDupB r = true := by
  simp only [noDupB, Bool.and_eq_true, Bool.not_eq_true'] at h
  refine ⟨fun hm => ?_, h.2⟩
  have h3 : r.contains n = true := List.elem_iff.mpr hm
  rw [h3] at h
  exact Bool.noConfusion h.1

mutual
theorem mem_make_zip : ∀ (t : FSTree), wf t = true → ∀ (p : List String) (c : String),
    ((p, c) ∈ make_zip t ↔ (fetch t p = some c ∧ p ≠ []))
  | .file c0, _, p, c => by
      constructor
      · intro h
        simp [make_zip] at h
      · rintro ⟨hf, hp⟩
        cases p with
        | nil => exact absurd rfl hp
        | cons x xs => exact absurd hf (by simp [fetch])
  | .dir es, hw, p, c => by
      have hw2 : noDupB (Entries.names es) = true ∧ wfEntries es = true := by
        simpa [wf, Bool.and_eq_true] using hw
      cases p with
      | nil =>
        constructor
        · intro h
          exact absurd rfl (make_zip_paths_ne_nil _ _ _ h)
        · rintro ⟨-, hp⟩
          exact absurd rfl hp
      | cons n q =>
        rw [show make_zip (FSTree.dir es) = zipFiles es ++ zipDirs es from rfl,
          mem_zip_entries es hw2.1 hw2.2 n q c,
          show fetch (FSTree.dir es) (n :: q) = fetchIn es n q from rfl]
        simp
theorem mem_zip_entries : ∀ (es : Entries), noDupB (Entries.names es) = true →
    wfEntries es = true → ∀ (n : String) (p : List String) (c : String),
    ((n :: p, c) ∈ zipFiles es ++ zipDirs es ↔ fetchIn es n p = some c)
  | .nil, _, _, n, p, c => by simp [zipFiles, zipDirs, fetchIn]
  | .cons m t r, hn, hw, n, p, c => by
      obtain ⟨hm, hn2⟩ := noDupB_cons m (Entries.names r) hn
      have hwt : wf t = true ∧ wfEntries r = true := by
        simpa [wfEntries, Bool.and_eq_true] using hw
      cases t with
      | file c0 =>
        rw [fetchIn_cons,
          show zipFiles (Entries.cons m (.file c0) r) = ([m], c0) :: zipFiles r from rfl,
          show zipDirs (Entries.cons m (.file c0) r) = zipDirs r from rfl,
          List.cons_append, List.mem_cons]
        by_cases hmn : m = n
        · subst hmn
          rw [if_pos rfl]
          constructor
          · rintro (h | h)
            · have h1 := congrArg Prod.fst h
              have h2 := congrArg Prod.snd h
              simp only at h1 h2
              have hp : p = [] := by
                have := congrArg List.tail h1
                simpa using this
              subst hp
              subst h2
              rfl
            · exact absurd (head_mem_of_mem_zip_entries r m p c h) hm
          · intro hf
            cases p with
            | nil =>
              have hc : c0 = c := Option.some.inj hf
              subst hc
              exact Or.inl rfl
            | cons x xs => exact absurd hf (by simp [fetch])
        · rw [if_neg hmn, ← mem_zip_entries r hn2 hwt.2 n p c]
          constructor
          · rintro (h | h)
            · have h1 := congrArg Prod.fst h
              simp only [List.cons.injEq] at h1
              exact absurd h1.1.symm hmn
            · exact h
          · exact fun h => Or.inr h
      | dir es2 =>
        rw [fetchIn_cons,
          show zipFiles (Entries.cons m (.dir es2) r) = zipFiles r from rfl,
          show zipDirs (Entries.cons m (.dir es2) r)
            = (make_zip (FSTree.dir es2)).map (fun pc => (m :: pc.1, pc.2)) ++ zipDirs r from
            rfl]
        by_cases hmn : m = n
        · subst hmn
          rw [if_pos rfl]
          constructor
          · intro h
            rw [List.mem_append, List.mem_append] at h
            rcases h with h | h | h
            · exact absurd
                (head_mem_of_mem_zip_entries r m p c (List.mem_append_left _ h)) hm
            · rw [List.mem_map] at h
              obtain ⟨⟨q, c2⟩, hq, heq⟩ := h
              have h1 := congrArg Prod.fst heq
              have h2 := congrArg Prod.snd heq
              simp only [List.cons.injEq] at h1 h2
              obtain ⟨-, hq2⟩ := h1
              subst hq2
              subst h2
              exact ((mem_make_zip (FSTree.dir es2) hwt.1 _ _).mp hq).1
            · exact absurd
                (head_mem_of_mem_zip_entries r m p c (List.mem_append_right _ h)) hm
          · intro hf
            have hp : p ≠ [] := by
              intro hp
              subst hp
              exact Option.noConfusion hf
            refine List.mem_append_right _ (List.mem_append_left _ ?_)
            rw [List.mem_map]
            exact ⟨(p, c), (mem_make_zip (FSTree.dir es2) hwt.1 p c).mpr ⟨hf, hp⟩, rfl⟩
        · rw [if_neg hmn, ← mem_zip_entries r hn2 hwt.2 n p c]
          constructor
          · intro h
            rw [List.mem_append, List.mem_append] at h
            rcases h with h | h | h
            · exact List.mem_append_left _ h
            · rw [List.mem_map] at h
              obtain ⟨⟨q, c2⟩, -, heq⟩ := h
              have h1 := congrArg Prod.fst heq
              simp only [List.cons.injEq] at h1
              exact absurd h1.1 hmn
            · exact List.mem_append_right _ h
          · intro h
            rw [List.mem_append] at h
            rcases h with h | h
            · exact List.mem_append_left _ h
            · exact List.mem_append_right _ (List.mem_append_right _ h)
end

mutual
theorem nodup_make_zip : ∀ (t : FSTree), wf t = true → ((make_zip t).map Prod.fst).Nodup
  | .file _, _ => by simp [make_zip]
  | .dir es, hw => by
      have hw2 : noDupB (Entries.names es) = true ∧ wfEntries es = true := by
        simpa [wf, Bool.and_eq_true] using hw
      exact nodup_zip_entries es hw2.1 hw2.2
theorem nodup_zip_entries : ∀ (es : Entries), noDupB (Entries.names es) = true →
    wfEntries es = true → ((zipFiles es ++ zipDirs es).map Prod.fst).Nodup
  | .nil, _, _ => by simp [zipFiles, zipDirs]
  | .cons m t r, hn, hw => by
      obtain ⟨hm, hn2⟩ := noDupB_cons m (Entries.names r) hn
      have hwt : wf t = true ∧ wfEntries r = true := by
        simpa [wfEntries, Bool.and_eq_true] using hw
      have ihr := nodup_zip_entries r hn2 hwt.2
      cases t with
      | file c0 =>
        rw [show zipFiles (Entries.cons m (.file c0) r) = ([m], c0) :: zipFiles r from rfl,
          show zipDirs (Entries.cons m (.file c0) r) = zipDirs r from rfl,
          List.cons_append, List.map_cons]
        refine List.nodup_cons.mpr ⟨?_, ihr⟩
        intro hmem
        rw [List.mem_map] at hmem
        obtain ⟨⟨q, c2⟩, hq, heq⟩ := hmem
        simp only at heq
        subst heq
        exact absurd (head_mem_of_mem_zip_entries r m [] c2 hq) hm
      | dir es2 =>
        rw [show zipFiles (Entries.cons m (.dir es2) r) = zipFiles r from rfl,
          show zipDirs (Entries.cons m (.dir es2) r)
            = (make_zip (FSTree.dir es2)).map (fun pc => (m :: pc.1, pc.2)) ++ zipDirs r from
            rfl]
        have hperm : (zipFiles r
              ++ ((make_zip (FSTree.dir es2)).map (fun pc => (m :: pc.1, pc.2)) ++ zipDirs r)).Perm
            ((make_zip (FSTree.dir es2)).map (fun pc => (m :: pc.1, pc.2))
              ++ (zipFiles r ++ zipDirs r)) := by
          rw [← List.append_assoc, ← List.append_assoc]
          exact List.Perm.append_right _ List.perm_append_comm
        rw [(hperm.map Prod.fst).nodup_iff]
        rw [List.map_append]
        refine List.Nodup.append ?_ ihr ?_
        · rw [List.map_map]
          have hz := nodup_make_zip (FSTree.dir es2) hwt.1
          have hzz := List.Nodup.map (List.cons_injective (a := m)) hz
          rw [List.map_map] at hzz
          exact hzz
        · intro x hxB hxR
          rw [List.map_map, List.mem_map] at hxB
          obtain ⟨⟨q, c2⟩, -, heq⟩ := hxB
          rw [List.mem_map] at hxR
          obtain ⟨⟨q2, c3⟩, hq2, heq2⟩ := hxR
          simp only [Function.comp_apply] at heq
          simp only at heq2
          subst heq2
          subst heq
          exact absurd (head_mem_of_mem_zip_entries r m q c3 hq2) hm
end

/-- C7: for a well-formed working tree (distinct sibling names, as on a real
file system), the archive built by `make_zip` has exactly one entry per file,
each entry keyed by the path relative to the tree root, no entry for the
root itself, and an entry `(p, c)` exists exactly when the tree stores
content `c` at path `p` — so unpacking reproduces exactly the file set and
byte contents of the tree. -/
theorem c7_make_zip_roundtrip (es : Entries) (hw : wf (FSTree.dir es) = true) :
    (∀ p c, ((p, c) ∈ make_zip (FSTree.dir es) ↔ fetch (FSTree.dir es) p = some c))
    ∧ ((make_zip (FSTree.dir es)).map Prod.fst).Nodup
    ∧ (∀ c, ([], c) ∉ make_zip (FSTree.dir es)) := by
  refine ⟨fun p c => ?_, nodup_make_zip _ hw, fun c h => make_zip_paths_ne_nil _ _ _ h rfl⟩
  rw [mem_make_zip _ hw p c]
  constructor
  · exact fun h => h.1
  · intro h
    refine ⟨h, fun hp => ?_⟩
    subst hp
    exact Option.noConfusion h

/-- A small concrete working tree for the C7 witness. -/
def demoEntries : Entries :=
  Entries.cons "a.txt" (.file "A")
    (Entries.cons "sub" (.dir (Entries.cons "b.txt" (.file "B") Entries.nil)) Entries.nil)

/-- C7 witness: the round-trip theorem at a concrete two-level tree. -/
theorem c7_witness :
    wf (FSTree.dir demoEntries) = true
    ∧ (((["sub", "b.txt"], "B") ∈ make_zip (FSTree.dir demoEntries))
        ↔ fetch (FSTree.dir demoEntries) ["sub", "b.txt"] = some "B")
    ∧ ((make_zip (FSTree.dir demoEntries)).map Prod.fst).Nodup
    ∧ (([], "A") ∉ make_zip (FSTree.dir demoEntries)) :=
  ⟨by decide,
   (c7_make_zip_roundtrip demoEntries (by decide)).1 ["sub", "b.txt"] "B",
   (c7_make_zip_roundtrip demoEntries (by decide)).2.1,
   (c7_make_zip_roundtrip demoEntries (by decide)).2.2 "A"⟩

end GenApp
